/-
Verification of the evolver bioreactor control system (dpu_VH).

This file gives a shallow embedding, in Lean 4 over Mathlib, of the parts of
the repository needed to settle the frozen claims: the chemostat bolus/rate
feasibility adjustment (`evolver_manager/evolver_controls.py`), the device
command queue and lock/unlock discipline (same file), the calibration
request/response polling loop (same file), the turbidostat per-vial state
machine (`evolver_manager/bioreactors/turbidostat.py`), the fluid-usage
record classifier (`evolver_manager/bioreactors/bioreactor.py`), and the
daemon's refill command and recurring-fluid reconciliation (`daemon.py`).

Python floats are modelled as rationals (ℚ), Python ints as ℤ/ℕ, dicts as
association lists or option-valued maps, and raised exceptions as explicit
error components.  Each definition carries a note naming the source function
it embeds.
-/
import Mathlib

namespace DpuVH

/-! ### Global configuration constants (`global_config.py`) -/

/-- OUTFLOW_EXTRA = 5 (`global_config.py` line 31). -/
def OUTFLOW_EXTRA : ℚ := 5

/-- BOLUS_VOLUME_MIN = 0.2 (`global_config.py` line 32). -/
def BOLUS_VOLUME_MIN : ℚ := 1/5

/-- BOLUS_VOLUME_MAX = 15 (`global_config.py` line 33). -/
def BOLUS_VOLUME_MAX : ℚ := 15

/-- BOLUS_REPEAT_MAX = 5.0 (`global_config.py` line 35). -/
def BOLUS_REPEAT_MAX : ℚ := 5

/-- MIN_PUMP_PERIOD = 120 seconds (`global_config.py` line 37). -/
def MIN_PUMP_PERIOD : ℚ := 120

/-- SECS_PER_UNIT_TIME = 3600 (`global_config.py` line 40). -/
def SECS_PER_UNIT_TIME : ℚ := 3600

/-- NUM_VIALS_DEFAULT = 16 (`global_config.py` line 27). -/
def NUM_VIALS_DEFAULT : ℕ := 16

/-! ### `EvolverControls.adjust_bolus_rate`
(`evolver_manager/evolver_controls.py` lines 147-192).

The Python classmethod takes a bolus (mL), a rate (dilutions per unit time)
and a total volume, and returns `(adjusted, bolus, rate)` or raises
`ValueError`.  We return `Except String (Bool × ℚ × ℚ)`, with `Except.error`
standing for the raised `ValueError`. -/

/-- Embeds `EvolverControls.adjust_bolus_rate`.  `period` and `max_rate` are
computed once, from the INPUT bolus, exactly as in the source; note that the
infeasibility test in the oversized-bolus branch compares the rescaled rate
against this stale `max_rate`. -/
def adjust_bolus_rate (bolus rate total_volume : ℚ) :
    Except String (Bool × ℚ × ℚ) :=
  let period := (SECS_PER_UNIT_TIME * bolus) / (rate * total_volume)
  let max_rate := (SECS_PER_UNIT_TIME * bolus) / (MIN_PUMP_PERIOD * total_volume)
  if bolus > BOLUS_REPEAT_MAX then
    -- Bolus too high
    let rate' := rate * (BOLUS_REPEAT_MAX / bolus)
    let bolus' := BOLUS_REPEAT_MAX
    if rate' > max_rate then
      Except.error "Rate and bolus are incompatible withoverflow protection"
    else
      Except.ok (true, bolus', rate')
  else if rate > max_rate then
    -- Rate too high
    let bolus' := bolus * MIN_PUMP_PERIOD / period
    let rate' := rate * period / MIN_PUMP_PERIOD
    if bolus' > BOLUS_REPEAT_MAX then
      Except.error "Rate and bolus are incompatible withoverflow protection"
    else
      Except.ok (true, bolus', rate')
  else if bolus < BOLUS_VOLUME_MIN then
    -- Bolus too small
    Except.ok (true, BOLUS_VOLUME_MIN, rate * (BOLUS_VOLUME_MIN / bolus))
  else
    Except.ok (false, bolus, rate)

/-- Implied pump period of a (bolus, rate) pair at a given total volume:
seconds-per-unit-time × bolus / (rate × volume), as used throughout
`evolver_controls.py` (e.g. `dilute_repeat` line 381). -/
def implied_period (bolus rate total_volume : ℚ) : ℚ :=
  (SECS_PER_UNIT_TIME * bolus) / (rate * total_volume)

/-- C1, counterexample.  With bolus 10, rate 10, total volume 36 (all
positive), `adjust_bolus_rate` silently returns bolus 5 and rate 5, whose
implied period is 100 seconds, below the 120-second minimum pump period:
the oversized-bolus branch rescales the rate against the stale pre-clamp
`max_rate`, so no `ValueError` is raised even though the resulting period
is infeasible. -/
theorem adjust_bolus_rate_period_counterexample :
    adjust_bolus_rate 10 10 36 = Except.ok (true, 5, 5) ∧
    implied_period 5 5 36 < MIN_PUMP_PERIOD ∧
    (0 : ℚ) < 10 ∧ (0 : ℚ) < 36 := by
  refine ⟨?_, ?_, by norm_num, by norm_num⟩
  · simp only [adjust_bolus_rate, BOLUS_REPEAT_MAX, SECS_PER_UNIT_TIME,
      MIN_PUMP_PERIOD, BOLUS_VOLUME_MIN]
    norm_num
  · simp only [implied_period, SECS_PER_UNIT_TIME, MIN_PUMP_PERIOD]
    norm_num

/-- C1, amended.  For positive bolus, rate and total volume,
`adjust_bolus_rate` either raises `ValueError` or returns a bolus at most the
maximum recurrent bolus; the returned pair's implied period meets the minimum
pump period provided the INPUT bolus did not exceed the maximum (the
oversized-bolus branch leaves the implied period unchanged, so it can stay
below the minimum, as the counterexample shows); and the returned bolus meets
the minimum bolus provided the INPUT implied period already met the minimum
pump period (the rate-reduction branch can shrink the bolus below the
minimum). -/
theorem adjust_bolus_rate_amended (bolus rate total_volume : ℚ)
    (hb : 0 < bolus) (hr : 0 < rate) (hv : 0 < total_volume)
    (adj : Bool) (b' r' : ℚ)
    (hok : adjust_bolus_rate bolus rate total_volume = Except.ok (adj, b', r')) :
    b' ≤ BOLUS_REPEAT_MAX ∧
    (bolus ≤ BOLUS_REPEAT_MAX →
      MIN_PUMP_PERIOD ≤ implied_period b' r' total_volume) ∧
    (MIN_PUMP_PERIOD ≤ implied_period bolus rate total_volume →
      BOLUS_VOLUME_MIN ≤ b') := by
  have hrv : 0 < rate * total_volume := mul_pos hr hv
  have hPv : 0 < MIN_PUMP_PERIOD * total_volume := by
    have : (0:ℚ) < MIN_PUMP_PERIOD := by norm_num [MIN_PUMP_PERIOD]
    exact mul_pos this hv
  have hS : (0:ℚ) < SECS_PER_UNIT_TIME := by norm_num [SECS_PER_UNIT_TIME]
  set S := SECS_PER_UNIT_TIME with hSdef
  set P := MIN_PUMP_PERIOD with hPdef
  have hP : (0:ℚ) < P := by norm_num [hPdef, MIN_PUMP_PERIOD]
  have hper : 0 < (S * bolus) / (rate * total_volume) :=
    div_pos (mul_pos hS hb) hrv
  -- the branch conditions compare the rate with `max_rate`; translate them
  -- into statements about the implied period
  have hkey : ∀ x : ℚ, rate > (S * bolus) / (P * total_volume) ↔
      (S * bolus) / (rate * total_volume) < P := by
    intro _
    rw [gt_iff_lt, div_lt_iff₀ hPv, div_lt_iff₀ hrv]
    constructor <;> intro h <;> nlinarith
  unfold adjust_bolus_rate at hok
  simp only [← hSdef, ← hPdef] at hok
  by_cases h1 : bolus > BOLUS_REPEAT_MAX
  · -- oversized-bolus branch
    rw [if_pos h1] at hok
    by_cases h2 : rate * (BOLUS_REPEAT_MAX / bolus) >
        S * bolus / (P * total_volume)
    · rw [if_pos h2] at hok; exact absurd hok (by simp)
    · rw [if_neg h2] at hok
      injection hok with hok
      obtain ⟨rfl, rfl, rfl⟩ : adj = true ∧ b' = BOLUS_REPEAT_MAX ∧
          r' = rate * (BOLUS_REPEAT_MAX / bolus) := by
        simpa [Prod.ext_iff] using hok.symm
      refine ⟨le_refl _, fun hc => absurd h1 (not_lt.mpr hc), fun _ => ?_⟩
      norm_num [BOLUS_VOLUME_MIN, BOLUS_REPEAT_MAX]
  · rw [if_neg h1] at hok
    by_cases h2 : rate > S * bolus / (P * total_volume)
    · -- rate-too-high branch
      rw [if_pos h2] at hok
      have hperlt : (S * bolus) / (rate * total_volume) < P := (hkey 0).mp h2
      by_cases h3 : bolus * P / ((S * bolus) / (rate * total_volume)) >
          BOLUS_REPEAT_MAX
      · rw [if_pos h3] at hok; exact absurd hok (by simp)
      · rw [if_neg h3] at hok
        injection hok with hok
        obtain ⟨rfl, rfl, rfl⟩ : adj = true ∧
            b' = bolus * P / ((S * bolus) / (rate * total_volume)) ∧
            r' = rate * ((S * bolus) / (rate * total_volume)) / P := by
          simpa [Prod.ext_iff] using hok.symm
        refine ⟨not_lt.mp h3, fun _ => ?_, fun hc => ?_⟩
        · -- new implied period is P^2 / period, which exceeds P
          set q := (S * bolus) / (rate * total_volume) with hqdef
          have hqne : q ≠ 0 := ne_of_gt hper
          have hSb : q * (rate * total_volume) = S * bolus :=
            div_mul_cancel₀ (S * bolus) hrv.ne'
          show P ≤ S * (bolus * P / q) / (rate * q / P * total_volume)
          have hBpos : 0 < rate * q / P * total_volume := by positivity
          rw [le_div_iff₀ hBpos]
          have e1 : P * (rate * q / P * total_volume) =
              rate * q * total_volume := by
            field_simp
          have e2 : S * (bolus * P / q) = S * bolus * P / q := by ring
          rw [e1, e2, ← hSb]
          have e3 : q * (rate * total_volume) * P / q =
              rate * total_volume * P := by
            field_simp; ring
          rw [e3]
          nlinarith [hperlt, hrv]
        · exact absurd hc (not_le.mpr hperlt)
    · rw [if_neg h2] at hok
      have hperge : P ≤ (S * bolus) / (rate * total_volume) := by
        by_contra hcon
        exact h2 ((hkey 0).mpr (not_le.mp hcon))
      by_cases h3 : bolus < BOLUS_VOLUME_MIN
      · -- bolus-too-small branch
        rw [if_pos h3] at hok
        injection hok with hok
        obtain ⟨rfl, rfl, rfl⟩ : adj = true ∧ b' = BOLUS_VOLUME_MIN ∧
            r' = rate * (BOLUS_VOLUME_MIN / bolus) := by
          simpa [Prod.ext_iff] using hok.symm
        refine ⟨by norm_num [BOLUS_VOLUME_MIN, BOLUS_REPEAT_MAX],
          fun _ => ?_, fun _ => le_refl _⟩
        -- implied period unchanged by the proportional rescale
        have : implied_period BOLUS_VOLUME_MIN
            (rate * (BOLUS_VOLUME_MIN / bolus)) total_volume =
            (S * bolus) / (rate * total_volume) := by
          unfold implied_period
          rw [← hSdef]
          have hbne : bolus ≠ 0 := ne_of_gt hb
          have hmne : BOLUS_VOLUME_MIN ≠ 0 := by norm_num [BOLUS_VOLUME_MIN]
          field_simp
          ring
        rw [this]; exact hperge
      · -- no adjustment
        rw [if_neg h3] at hok
        injection hok with hok
        obtain ⟨rfl, rfl, rfl⟩ : adj = false ∧ b' = bolus ∧ r' = rate := by
          simpa [Prod.ext_iff] using hok.symm
        exact ⟨not_lt.mp h1, fun _ => by
            simpa [implied_period, ← hSdef, ← hPdef] using hperge,
          fun _ => not_lt.mp h3⟩

/-- C1, witness for the amended theorem at bolus 1, rate 1, volume 1 (the
call returns `(false, 1, 1)` unadjusted). -/
theorem adjust_bolus_rate_amended_witness :
    (1:ℚ) ≤ BOLUS_REPEAT_MAX ∧
    ((1:ℚ) ≤ BOLUS_REPEAT_MAX →
      MIN_PUMP_PERIOD ≤ implied_period 1 1 1) ∧
    (MIN_PUMP_PERIOD ≤ implied_period 1 1 1 →
      BOLUS_VOLUME_MIN ≤ (1:ℚ)) :=
  adjust_bolus_rate_amended 1 1 1 (by norm_num) (by norm_num) (by norm_num)
    false 1 1 (by
      simp only [adjust_bolus_rate, BOLUS_REPEAT_MAX, SECS_PER_UNIT_TIME,
        MIN_PUMP_PERIOD, BOLUS_VOLUME_MIN]
      norm_num)

/-! ### Daemon recurring-fluid reconciliation (`daemon.py` lines 332-340)

`Daemon.manage_updates` keeps, per fluid name, an installed recurring entry
`[vol, period, last]`; after draining the update queue it advances every
entry.  Python's float `//` and `%` are modelled on ℚ as floor division and
the matching remainder. -/

/-- Python floor division `a // b` on ℚ (mathematical floor of the exact
quotient, returned as a rational, as Python returns a float). -/
def pyFloorDiv (a b : ℚ) : ℚ := (⌊a / b⌋ : ℚ)

/-- Python modulo `a % b` on ℚ: `a - b * (a // b)`. -/
def pyMod (a b : ℚ) : ℚ := a - b * (⌊a / b⌋ : ℚ)

/-- One installed recurring-fluid entry: bolus volume, period, last-applied
timestamp (the 3-element lists stored in `Daemon._recurrent`). -/
structure RecurrentEntry where
  vol : ℚ
  period : ℚ
  last : ℚ
deriving DecidableEq

/-- Embeds the per-entry advance step of `Daemon.manage_updates`
(`daemon.py` lines 333-340): at pass time `start`, if the elapsed time since
`last` exceeds the period, compute `dilutions = elapsed // period`, set
`last` to `start - elapsed % period`, and subtract `dilutions * vol` from
the fluid's remaining volume.  Returns the updated entry together with the
updated remaining volume. -/
def advance_recurrent (start : ℚ) (e : RecurrentEntry) (fluid_vol : ℚ) :
    RecurrentEntry × ℚ :=
  let elapsed := start - e.last
  if elapsed > e.period then
    let dilutions := pyFloorDiv elapsed e.period
    let new_last := start - pyMod elapsed e.period
    (⟨e.vol, e.period, new_last⟩, fluid_vol - dilutions * e.vol)
  else
    (e, fluid_vol)

/-- C2.  For an installed entry with bolus `b`, period `p > 0` and
last-applied `t0`, a reconciliation pass at time `t` with `t - t0 > p`
subtracts exactly `⌊(t - t0)/p⌋ × b` from the fluid's remaining volume and
advances last-applied to `t - ((t - t0) mod p) = t0 + ⌊(t - t0)/p⌋ × p`,
i.e. by a whole number (at least one) of periods, leaving a residual
strictly below one period — partial periods are never charged.  In
particular with `b = 1`, `p = 100`, a pass at `t0 + 250` subtracts exactly
`2` and sets last-applied to `t0 + 200`. -/
theorem manage_updates_recurrent_advance (b p t0 t V : ℚ)
    (hp : 0 < p) (helaps : p < t - t0) :
    (advance_recurrent t ⟨b, p, t0⟩ V).2 = V - (⌊(t - t0) / p⌋ : ℚ) * b ∧
    (advance_recurrent t ⟨b, p, t0⟩ V).1.vol = b ∧
    (advance_recurrent t ⟨b, p, t0⟩ V).1.period = p ∧
    (advance_recurrent t ⟨b, p, t0⟩ V).1.last = t0 + (⌊(t - t0) / p⌋ : ℚ) * p ∧
    1 ≤ ⌊(t - t0) / p⌋ ∧
    0 ≤ t - (advance_recurrent t ⟨b, p, t0⟩ V).1.last ∧
    t - (advance_recurrent t ⟨b, p, t0⟩ V).1.last < p ∧
    (∀ t0' V' : ℚ,
      advance_recurrent (t0' + 250) ⟨1, 100, t0'⟩ V' =
        (⟨1, 100, t0' + 200⟩, V' - 2)) := by
  have hgate : t - t0 > p := helaps
  have hfloor1 : (1 : ℤ) ≤ ⌊(t - t0) / p⌋ := by
    rw [Int.le_floor]
    push_cast
    rw [le_div_iff₀ hp]
    linarith
  have hfle : (⌊(t - t0) / p⌋ : ℚ) ≤ (t - t0) / p := Int.floor_le _
  have hflt : (t - t0) / p < (⌊(t - t0) / p⌋ : ℚ) + 1 := Int.lt_floor_add_one _
  have hres : advance_recurrent t ⟨b, p, t0⟩ V =
      (⟨b, p, t - ((t - t0) - p * (⌊(t - t0) / p⌋ : ℚ))⟩,
        V - (⌊(t - t0) / p⌋ : ℚ) * b) := by
    unfold advance_recurrent pyFloorDiv pyMod
    rw [if_pos hgate]
  rw [hres]
  refine ⟨rfl, rfl, rfl, by ring, hfloor1, ?_, ?_, ?_⟩
  · have : p * (⌊(t - t0) / p⌋ : ℚ) ≤ t - t0 := by
      rw [mul_comm, ← le_div_iff₀ hp]; exact hfle
    simp only
    linarith
  · have : t - t0 < p * ((⌊(t - t0) / p⌋ : ℚ) + 1) := by
      rw [mul_comm, ← div_lt_iff₀ hp]; exact hflt
    simp only
    linarith [this]
  · intro t0' V'
    have h250 : t0' + 250 - t0' = (250 : ℚ) := by ring
    have hfl : (⌊(250 : ℚ) / 100⌋ : ℤ) = 2 := by norm_num
    unfold advance_recurrent pyFloorDiv pyMod
    rw [if_pos (by norm_num : t0' + 250 - t0' > (100 : ℚ))]
    simp only [h250, hfl]
    norm_num
    ring

/-- C2, witness: the advance theorem instantiated at `b = 1`, `p = 100`,
`t0 = 0`, `t = 250`, `V = 10`. -/
theorem manage_updates_recurrent_advance_witness :
    (advance_recurrent 250 ⟨1, 100, 0⟩ 10).2 =
        10 - (⌊((250 : ℚ) - 0) / 100⌋ : ℚ) * 1 ∧
    (advance_recurrent 250 ⟨1, 100, 0⟩ 10).1.vol = 1 ∧
    (advance_recurrent 250 ⟨1, 100, 0⟩ 10).1.period = 100 ∧
    (advance_recurrent 250 ⟨1, 100, 0⟩ 10).1.last =
        0 + (⌊((250 : ℚ) - 0) / 100⌋ : ℚ) * 100 ∧
    1 ≤ ⌊((250 : ℚ) - 0) / 100⌋ ∧
    0 ≤ 250 - (advance_recurrent 250 ⟨1, 100, 0⟩ 10).1.last ∧
    250 - (advance_recurrent 250 ⟨1, 100, 0⟩ 10).1.last < 100 ∧
    (∀ t0' V' : ℚ,
      advance_recurrent (t0' + 250) ⟨1, 100, t0'⟩ V' =
        (⟨1, 100, t0' + 200⟩, V' - 2)) :=
  manage_updates_recurrent_advance 1 100 0 250 10 (by norm_num) (by norm_num)

/-! ### Daemon `refill` command (`daemon.py` lines 144-148)

The fluid inventory `Daemon._fluids` is a Python dict fluid-name → volume;
it is modelled as an association list with (in well-formed states) distinct
keys.  The `refill` branch of `handle_client` iterates over the args map and
overwrites entries whose name is already present, then replies
`{"status": "ok"}`. -/

/-- Fluid inventory: association list fluid-name → remaining volume. -/
def Inventory : Type := List (String × ℚ)

/-- Membership test `fluid in self._fluids`. -/
def containsFluid (inv : Inventory) (f : String) : Bool :=
  inv.any (fun p => decide (p.1 = f))

/-- Assignment `self._fluids[fluid] = vol` for a key already present
(overwrites every entry carrying the key; a dict has it exactly once). -/
def setFluid (inv : Inventory) (f : String) (v : ℚ) : Inventory :=
  inv.map (fun p => if p.1 = f then (p.1, v) else p)

/-- Dict lookup on the association-list inventory model. -/
def lookupFluid : Inventory → String → Option ℚ
  | [], _ => none
  | p :: l, f => if p.1 = f then some p.2 else lookupFluid l f

/-- Embeds the `refill` branch of `Daemon.handle_client` (`daemon.py` lines
144-148): for every `(fluid, vol)` in args, overwrite the inventory entry if
the fluid name is present, otherwise do nothing; the response is always
status "ok". -/
def refill (args : List (String × ℚ)) (fluids : Inventory) :
    Inventory × String :=
  (args.foldl
    (fun fl p => if containsFluid fl p.1 then setFluid fl p.1 p.2 else fl)
    fluids, "ok")

theorem setFluid_keys (inv : Inventory) (f : String) (v : ℚ) :
    (setFluid inv f v).map Prod.fst = inv.map Prod.fst := by
  induction inv with
  | nil => rfl
  | cons a l ih =>
    simp only [setFluid, List.map_cons] at *
    by_cases h : a.1 = f
    · simp [h, ih]
    · simp [h, ih]

theorem refill_keys (args : List (String × ℚ)) (fluids : Inventory) :
    (refill args fluids).1.map Prod.fst = fluids.map Prod.fst := by
  induction args generalizing fluids with
  | nil => rfl
  | cons a l ih =>
    show (refill l (if containsFluid fluids a.1
        then setFluid fluids a.1 a.2 else fluids)).1.map Prod.fst = _
    by_cases h : containsFluid fluids a.1
    · rw [if_pos h, ih, setFluid_keys]
    · rw [if_neg h, ih]

theorem containsFluid_iff (inv : Inventory) (f : String) :
    containsFluid inv f = true ↔ f ∈ inv.map Prod.fst := by
  simp only [containsFluid, List.any_eq_true, List.mem_map, decide_eq_true_eq]

theorem lookup_setFluid_self (inv : Inventory) (f : String) (v : ℚ)
    (h : containsFluid inv f = true) :
    lookupFluid (setFluid inv f v) f = some v := by
  induction inv with
  | nil => simp [containsFluid] at h
  | cons a l ih =>
    simp only [setFluid, List.map_cons] at *
    by_cases ha : a.1 = f
    · simp [lookupFluid, ha]
    · simp only [if_neg ha, lookupFluid, ha, if_false]
      have h' : containsFluid l f = true := by
        simp only [containsFluid, List.any_cons, Bool.or_eq_true,
          decide_eq_true_eq] at h
        rcases h with h | h
        · exact absurd h ha
        · simpa [containsFluid] using h
      exact ih h'

theorem lookup_setFluid_other (inv : Inventory) (f g : String) (v : ℚ)
    (h : g ≠ f) : lookupFluid (setFluid inv f v) g = lookupFluid inv g := by
  induction inv with
  | nil => rfl
  | cons a l ih =>
    simp only [setFluid, List.map_cons] at *
    by_cases ha : a.1 = f
    · have hag : ¬ a.1 = g := fun he => h (he.symm.trans ha)
      simp only [if_pos ha, lookupFluid, if_neg (by simpa using hag),
        if_neg (fun he : f = g => h he.symm)]
      exact ih
    · simp only [if_neg ha, lookupFluid]
      by_cases hg : a.1 = g
      · simp [hg]
      · simp only [if_neg hg]
        exact ih

theorem refill_lookup_absent (args : List (String × ℚ)) (fluids : Inventory)
    (g : String) (hg : g ∉ args.map Prod.fst) :
    lookupFluid (refill args fluids).1 g = lookupFluid fluids g := by
  induction args generalizing fluids with
  | nil => rfl
  | cons a l ih =>
    simp only [List.map_cons, List.mem_cons, not_or] at hg
    show lookupFluid (refill l (if containsFluid fluids a.1
        then setFluid fluids a.1 a.2 else fluids)).1 g = _
    by_cases h : containsFluid fluids a.1
    · rw [if_pos h, ih _ hg.2, lookup_setFluid_other _ _ _ _ hg.1]
    · rw [if_neg h, ih _ hg.2]

/-- C9.  `refill` always replies "ok"; it never adds or removes inventory
entries (the key list is unchanged); an args map containing only names
absent from the inventory leaves the inventory entirely unchanged; fluid
names not mentioned in args keep their volume; and (for dict-shaped args,
i.e. distinct keys) every args entry whose name is present in the inventory
ends up with exactly the supplied volume. -/
theorem refill_spec (args : List (String × ℚ)) (fluids : Inventory)
    (hnodup : (args.map Prod.fst).Nodup) :
    (refill args fluids).2 = "ok" ∧
    (refill args fluids).1.map Prod.fst = fluids.map Prod.fst ∧
    ((∀ p ∈ args, containsFluid fluids p.1 = false) →
      (refill args fluids).1 = fluids) ∧
    (∀ g, g ∉ args.map Prod.fst →
      lookupFluid (refill args fluids).1 g = lookupFluid fluids g) ∧
    (∀ f v, (f, v) ∈ args → containsFluid fluids f = true →
      lookupFluid (refill args fluids).1 f = some v) := by
  refine ⟨rfl, refill_keys args fluids, ?_, fun g => refill_lookup_absent args fluids g, ?_⟩
  · intro hall
    induction args generalizing fluids with
    | nil => rfl
    | cons a l ih =>
      show (refill l (if containsFluid fluids a.1
          then setFluid fluids a.1 a.2 else fluids)).1 = fluids
      rw [if_neg (by simp [hall a (List.mem_cons_self a l)])]
      exact ih fluids (List.Nodup.of_cons hnodup)
        (fun p hp => hall p (List.mem_cons_of_mem a hp))
  · intro f v hmem hin
    induction args generalizing fluids with
    | nil => simp at hmem
    | cons a l ih =>
      rcases List.mem_cons.mp hmem with he | hl
      · subst he
        show lookupFluid (refill l (if containsFluid fluids f
            then setFluid fluids f v else fluids)).1 f = some v
        rw [if_pos hin]
        have hfl : f ∉ l.map Prod.fst := by
          simp only [List.map_cons, List.nodup_cons] at hnodup
          exact hnodup.1
        rw [refill_lookup_absent l _ f hfl]
        exact lookup_setFluid_self fluids f v hin
      · show lookupFluid (refill l (if containsFluid fluids a.1
            then setFluid fluids a.1 a.2 else fluids)).1 f = some v
        have hnodup' : (l.map Prod.fst).Nodup := by
          simp only [List.map_cons, List.nodup_cons] at hnodup
          exact hnodup.2
        by_cases h : containsFluid fluids a.1
        · rw [if_pos h]
          refine ih _ hnodup' hl ?_
          rw [containsFluid_iff] at hin ⊢
          rwa [setFluid_keys]
        · rw [if_neg h]
          exact ih _ hnodup' hl hin

/-- C9, witness: inventory `[("media", 20), ("drug", 7)]`, args
`[("media", 500), ("ghost", 3)]` — the known name is overwritten, the
unknown name is ignored, the reply is "ok". -/
theorem refill_spec_witness :
    (refill [("media", 500), ("ghost", 3)] [("media", 20), ("drug", 7)]).2 = "ok" ∧
    (refill [("media", 500), ("ghost", 3)]
        [("media", 20), ("drug", 7)]).1.map Prod.fst =
      ([("media", 20), ("drug", 7)] : Inventory).map Prod.fst ∧
    ((∀ p ∈ [("media", (500:ℚ)), ("ghost", 3)],
        containsFluid [("media", 20), ("drug", 7)] p.1 = false) →
      (refill [("media", 500), ("ghost", 3)]
        [("media", 20), ("drug", 7)]).1 = [("media", 20), ("drug", 7)]) ∧
    (∀ g, g ∉ ([("media", (500:ℚ)), ("ghost", 3)]).map Prod.fst →
      lookupFluid (refill [("media", 500), ("ghost", 3)]
          [("media", 20), ("drug", 7)]).1 g =
        lookupFluid [("media", 20), ("drug", 7)] g) ∧
    (∀ f v, (f, v) ∈ [("media", (500:ℚ)), ("ghost", 3)] →
      containsFluid [("media", 20), ("drug", 7)] f = true →
      lookupFluid (refill [("media", 500), ("ghost", 3)]
          [("media", 20), ("drug", 7)]).1 f = some v) :=
  refill_spec [("media", 500), ("ghost", 3)] [("media", 20), ("drug", 7)]
    (by decide)

/-! ### `Bioreactor.parse_fluid_usage`
(`evolver_manager/bioreactors/bioreactor.py` lines 395-417)

Update-message records carry a vial, a command tag and one payload per pump
channel (IN1, IN2, OUT); the payload type differs between variants (floats
for turbidostat records, pairs for chemostat records), so the embedding is
generic in the payload type `α`.  Each consumption map is a dict keyed by
vial, modelled as an insertion-ordered association list. -/

/-- One emitted record as consumed by `parse_fluid_usage`: vial, command
tag and the three per-pump payloads `record[pump]` for pump in PUMP_SET. -/
structure FluidRecord (α : Type) where
  vial : ℕ
  command : String
  in1 : α
  in2 : α
  out : α
deriving DecidableEq

/-- Consumption map keyed by vial, values are the (IN1, IN2, OUT) payload
triple. -/
abbrev ConsumptionMap (α : Type) : Type := List (ℕ × (α × α × α))

/-- Membership test `vial in <map>`. -/
def containsVial {α : Type} (m : ConsumptionMap α) (v : ℕ) : Bool :=
  m.any (fun p => decide (p.1 = v))

/-- Embeds one iteration of the record loop in
`Bioreactor.parse_fluid_usage`.  Note the source's "dilution" branch guards
on `vial not in dilution` but then assigns into `recurrent` (bioreactor.py
lines 410-414), so the dilution map is never written. -/
def parse_fluid_usage_step {α : Type}
    (maps : ConsumptionMap α × ConsumptionMap α) (r : FluidRecord α) :
    ConsumptionMap α × ConsumptionMap α :=
  let dilution := maps.1
  let recurrent := maps.2
  if r.command = "recurrent" then
    if containsVial recurrent r.vial = false then
      (dilution, recurrent ++ [(r.vial, (r.in1, r.in2, r.out))])
    else (dilution, recurrent)
  else if r.command = "dilution" then
    if containsVial dilution r.vial = false then
      (dilution, recurrent ++ [(r.vial, (r.in1, r.in2, r.out))])
    else (dilution, recurrent)
  else (dilution, recurrent)

/-- Embeds `Bioreactor.parse_fluid_usage`: classify the records of an
update message into the returned `(dilution, recurrent)` maps. -/
def parse_fluid_usage {α : Type} (records : List (FluidRecord α)) :
    ConsumptionMap α × ConsumptionMap α :=
  records.foldl parse_fluid_usage_step ([], [])

theorem parse_fluid_usage_step_fst {α : Type}
    (maps : ConsumptionMap α × ConsumptionMap α) (r : FluidRecord α) :
    (parse_fluid_usage_step maps r).1 = maps.1 := by
  unfold parse_fluid_usage_step
  dsimp only
  split_ifs <;> rfl

theorem parse_fluid_usage_foldl_fst {α : Type}
    (records : List (FluidRecord α))
    (maps : ConsumptionMap α × ConsumptionMap α) :
    (records.foldl parse_fluid_usage_step maps).1 = maps.1 := by
  induction records generalizing maps with
  | nil => rfl
  | cons r l ih =>
    rw [List.foldl_cons, ih, parse_fluid_usage_step_fst]

/-- C6, failing evaluation.  The returned one-shot ("dilution") consumption
map is empty for EVERY input record list — the source's "dilution" branch
assigns into `recurrent` instead of `dilution` — and in particular a single
record tagged "dilution" for vial 3 lands in the recurring map, not the
dilution map, contradicting the claimed classification. -/
theorem parse_fluid_usage_dilution_misfiled :
    (∀ (records : List (FluidRecord ℚ)),
      (parse_fluid_usage records).1 = []) ∧
    parse_fluid_usage (α := ℚ) [⟨3, "dilution", 1, 2, 5⟩] =
      ([], [(3, (1, 2, 5))]) := by
  constructor
  · intro records
    exact parse_fluid_usage_foldl_fst records ([], [])
  · rfl

/-! ### `EvolverControls` state machine (`evolver_manager/evolver_controls.py`)

State fields mirror `EvolverControls.__init__` (lines 38-71) for a device
with the default 16 vials.  The per-pump dictionaries
`_recurrent_commands` / `_paused_dilutions` (three 16-slot lists keyed by
PUMP_SET) are flattened into one 48-slot list in PUMP_SET-major order, the
same layout as the 48-token command arrays.  Of the cached broadcast
`self._data` only the token list `_data["config"]["pump"]["value"]` is
retained, which is all that `lock` reads; `cached = none` models the
initial `self._data = None`.  Outgoing `emit("command", ...)` calls are
collected in the `emitted` trace, other emits in `requests`.
`awaiting_response` models the plain instance attribute of that name
(absent before its first assignment, hence an `Option`), while
`awaiting_flag` models the separate `_awaiting_response` attribute — the
source reads the former in `_block` but clears only the latter in the
response handlers.

NOTE on duplicate methods: the Python class body defines `fluid_command`,
`stop_pumps` and `stop_all_pumps` twice; the later definitions (lines
695-786, direct-emit versions) shadow the earlier queue-based versions
(lines 230-276).  Both are embedded: `fluid_command` / `stop_pumps` are the
effective (shadowing) definitions, `fluid_command_queue` the shadowed
queue-based one. -/

/-- One outgoing "command" event payload (param, 48-token value array,
recurring/immediate flags).  The `fields_expected` bookkeeping constants are
omitted. -/
structure Msg where
  param : String
  value : List String
  recurring : Bool
  immediate : Bool
deriving DecidableEq

/-- EvolverControls state (see section comment). -/
structure CState where
  locked : Bool
  cached : Option (List String)
  recurrent_commands : List (Option String)
  paused_dilutions : List (Option String)
  immediate_queue : List String
  recurring_queue : List String
  emitted : List Msg
  requests : List String
  awaiting_response : Option Bool
  awaiting_flag : Bool
  active_cals : Option String
  power : List ℚ
  stir : List ℚ
  temp_setpoint : List ℚ
  timestamp : ℚ
deriving DecidableEq

/-- Initial controls state, from `EvolverControls.__init__`. -/
def initC : CState where
  locked := false
  cached := none
  recurrent_commands := List.replicate 48 none
  paused_dilutions := List.replicate 48 none
  immediate_queue := List.replicate 48 "--"
  recurring_queue := List.replicate 48 "--"
  emitted := []
  requests := []
  awaiting_response := none
  awaiting_flag := false
  active_cals := none
  power := []
  stir := []
  temp_setpoint := []
  timestamp := 0

/-- Append one "command" event to the emission trace. -/
def emitCommand (s : CState) (m : Msg) : CState :=
  { s with emitted := s.emitted ++ [m] }

/-- Writes one pump set's values into a 48-token array at
`vial + idx * 16`, skipping `None` entries, zipping vials with values (the
shared inner loop of both `fluid_command` definitions). -/
def applyPumpSet (vials : List ℕ) (acc : List String)
    (pr : ℕ × Option (List (Option String))) : List String :=
  match pr.2 with
  | none => acc
  | some ps =>
    (vials.zip ps).foldl
      (fun a vp =>
        match vp.2 with
        | none => a
        | some v => a.set (vp.1 + pr.1 * NUM_VIALS_DEFAULT) v)
      acc

/-- Embeds the EFFECTIVE `fluid_command` (second definition, lines
695-742): build a fresh 48-token "--" array, write the given pump values,
and emit the message immediately. -/
def fluid_command (s : CState) (vials : List ℕ)
    (in1 in2 out : Option (List (Option String)))
    (recurring immediate : Bool) : CState :=
  let value := [((0:ℕ), in1), (1, in2), (2, out)].foldl
    (applyPumpSet vials) (List.replicate 48 "--")
  emitCommand s
    { param := "pump", value := value,
      recurring := recurring, immediate := immediate }

/-- Embeds the SHADOWED queue-based `fluid_command` (first definition,
lines 230-257): select the recurring or immediate queue and overwrite
entries in place — last write wins within a tick; nothing is emitted.  The
`immediate` flag is accepted and unused, as in the source. -/
def fluid_command_queue (s : CState) (vials : List ℕ)
    (in1 in2 out : Option (List (Option String)))
    (recurring immediate : Bool) : CState :=
  let target := if recurring then s.recurring_queue else s.immediate_queue
  let target' := [((0:ℕ), in1), (1, in2), (2, out)].foldl
    (applyPumpSet vials) target
  if recurring then { s with recurring_queue := target' }
  else { s with immediate_queue := target' }

/-- Embeds `reset_queues` (lines 194-197). -/
def reset_queues (s : CState) : CState :=
  { s with immediate_queue := List.replicate 48 "--",
           recurring_queue := List.replicate 48 "--" }

/-- Embeds `dispatch_queues` (lines 199-228): emit one message per
non-default queue, then reset both queues. -/
def dispatch_queues (s : CState) : CState :=
  let s1 := if s.immediate_queue.any (fun v => decide (v ≠ "--")) then
      emitCommand s
        { param := "pump", value := s.immediate_queue,
          recurring := false, immediate := true }
    else s
  let s2 := if s.recurring_queue.any (fun v => decide (v ≠ "--")) then
      emitCommand s1
        { param := "pump", value := s.recurring_queue,
          recurring := true, immediate := false }
    else s1
  reset_queues s2

/-- Embeds the EFFECTIVE `stop_pumps` (second definition, lines 744-774):
emit an immediate message with "0" at every selected (pump set, vial) slot
and "__" elsewhere. -/
def stop_pumps (s : CState) (vials : List ℕ)
    (pin1 pin2 pout : Bool) : CState :=
  let value := [((0:ℕ), pin1), (1, pin2), (2, pout)].foldl
    (fun acc pr =>
      if pr.2 then
        vials.foldl (fun a vial => a.set (vial + pr.1 * NUM_VIALS_DEFAULT) "0") acc
      else acc)
    (List.replicate 48 "__")
  emitCommand s
    { param := "pump", value := value, recurring := false, immediate := true }

/-- Test whether a device pump token carries the recurring-schedule marker,
`"|" in value` in the source. -/
def hasSchedToken (v : String) : Bool := v.toList.contains '|'

/-- Embeds `EvolverControls.lock` (lines 73-92).  If already locked,
no-op.  Otherwise the lock flag is set FIRST; only then is the cached
broadcast data read — `self._data["config"]["pump"]["value"]` raises
(`TypeError`) when no broadcast was ever received (`_data is None`), which
the Boolean component reports, with the flag mutation kept (Python object
state survives the raise).  Otherwise every token containing "|" at flat
index `i` is remembered at `_recurrent_commands[PUMP_SET[i // 16]][i % 16]`
(flat index `i` again) and the touched vials get an immediate stop
command.  The Python `set` of vials is modelled by `dedup`; the stop
message depends only on membership. -/
def lock (s : CState) : CState × Bool :=
  if s.locked then (s, false)
  else
    let s1 := { s with locked := true }
    match s.cached with
    | none => (s1, true)
    | some pump_vals =>
      let rc := (pump_vals.enum).foldl
        (fun acc iv => if hasSchedToken iv.2 then acc.set iv.1 (some iv.2) else acc)
        s1.recurrent_commands
      let vials := ((pump_vals.enum).filterMap
        (fun iv => if hasSchedToken iv.2 then some (iv.1 % NUM_VIALS_DEFAULT)
          else none)).dedup
      (stop_pumps { s1 with recurrent_commands := rc } vials true true true, false)

/-- Embeds `EvolverControls.unlock` (lines 94-108).  The source sets
`vials = []`, gathers `recurrent_cmd = [self._recurrent_commands[pump] for
pump in self._PUMP_SET]` (always three lists) and then calls
`self.fluid_command(vials=vials, *recurrent_cmd, recurring=True)`.  Python
binds the three unpacked positionals to the parameters `vials`, `in1`,
`in2` — and `vials` is ALSO supplied as a keyword, so the call raises
`TypeError: got multiple values for argument 'vials'` during argument
binding, before `fluid_command`'s body runs.  `unlock` therefore aborts at
its first statement that has any effect: nothing is emitted, no state
field changes, and the final `self._locked = False` is never reached.  The
Boolean component reports the raise; the state component is the unchanged
object. -/
def unlock (s : CState) : CState × Bool :=
  let _recurrent_cmd :=
    [(s.recurrent_commands.drop 0).take NUM_VIALS_DEFAULT,
     (s.recurrent_commands.drop NUM_VIALS_DEFAULT).take NUM_VIALS_DEFAULT,
     (s.recurrent_commands.drop (2 * NUM_VIALS_DEFAULT)).take NUM_VIALS_DEFAULT]
  (s, true)

/-- Inbound broadcast as consumed by `EvolverControls.on_broadcast` (lines
492-501): the per-param config echoes `config["lxml" / "temp" /
"stir"]["value"]`, and — inside the stored `broadcast["data"]` — the pump
token list `["config"]["pump"]["value"]` that `lock` later scans. -/
structure DeviceBroadcast where
  data_pump_config : List String
  lxml : List ℚ
  temp : List ℚ
  stir : List ℚ
deriving DecidableEq

/-- Embeds `on_broadcast`: cache the machine config echoes and the
broadcast data, stamp the receive time. -/
def on_broadcast (s : CState) (b : DeviceBroadcast) (now : ℚ) : CState :=
  { s with power := b.lxml, temp_setpoint := b.temp, stir := b.stir,
           cached := some b.data_pump_config, timestamp := now }

/-! ### Calibration request/response polling (lines 506-571)

`request_active_calibrations` sets the plain attribute
`self.awaiting_response = True`, emits the request and calls `_block`,
which polls `self.awaiting_response` with a sleep until a timeout;
`on_activecalibrations` — run asynchronously when the device answers —
caches the payload and clears `self._awaiting_response` (the underscored
attribute).  The polling loop is modelled with a fuel bound (the number of
sleep periods before the timeout, `timeout / period` in the source) and an
environment `env` that says whether the asynchronous handler runs during
the i-th sleep and with which payload; this covers every interleaving of
the response with the poll. -/

/-- Embeds `on_activecalibrations` (lines 506-525): cache the (opaque)
processed payload and clear `_awaiting_response`.  The construction of the
active-fit dictionary from the payload list is kept opaque. -/
def on_activecalibrations (s : CState) (payload : String) : CState :=
  { s with active_cals := some payload, awaiting_flag := false }

/-- Embeds the polling loop of `_block` (lines 537-559) with `safe=True`:
each iteration re-reads `self.awaiting_response`; while it is truthy the
loop sleeps (during which the handler may run, injected by `env`) and gives
up once the fuel (timeout budget) is exhausted, returning `false`; the loop
returns `true` as soon as the flag reads false. -/
def run_block (env : ℕ → Option String) :
    ℕ → ℕ → CState → CState × Bool
  | 0, _, s =>
    if (s.awaiting_response.getD false) = false then (s, true) else (s, false)
  | Nat.succ n, i, s =>
    if (s.awaiting_response.getD false) = false then (s, true)
    else
      let s' := match env i with
        | some payload => on_activecalibrations s payload
        | none => s
      run_block env n (i + 1) s'

/-- Embeds `request_active_calibrations` (lines 561-571): set
`self.awaiting_response = True`, emit `getactivecal`, block; on success
return the cached payload, otherwise `None`. -/
def request_active_calibrations (env : ℕ → Option String) (fuel : ℕ)
    (s : CState) : CState × Option String :=
  let s1 := { s with awaiting_response := some true,
                     requests := s.requests ++ ["getactivecal"] }
  let p := run_block env fuel 0 s1
  if p.2 then (p.1, p.1.active_cals) else (p.1, none)

theorem run_block_stuck (env : ℕ → Option String) (fuel i : ℕ) (s : CState)
    (h : s.awaiting_response = some true) :
    (run_block env fuel i s).2 = false := by
  induction fuel generalizing i s with
  | zero => simp [run_block, h]
  | succ n ih =>
    rw [run_block]
    simp only [h, Option.getD_some]
    cases henv : env i with
    | none => simpa using ih (i + 1) s h
    | some payload =>
      simpa [henv] using ih (i + 1) (on_activecalibrations s payload) h

/-- C8.  The code_bug, evaluated: for EVERY schedule of the asynchronous
response handler (including one that answers during the very first sleep)
and every timeout budget, `request_active_calibrations` returns the
"no response" signal `None` — `_block` polls the plain attribute
`awaiting_response`, which `request_active_calibrations` set to `True` and
which no handler ever clears (the handlers clear `_awaiting_response`
instead), so the loop always runs to the timeout.  Concretely, with the
handler answering immediately, the payload IS cached and the underscored
flag IS cleared, yet the query still returns `None`, contradicting the
claim that an early response yields the cached payload. -/
theorem request_active_calibrations_always_times_out :
    (∀ (env : ℕ → Option String) (fuel : ℕ) (s : CState),
      (request_active_calibrations env fuel s).2 = none) ∧
    (request_active_calibrations (fun _ => some "calpayload") 3 initC).1.active_cals
      = some "calpayload" ∧
    (request_active_calibrations (fun _ => some "calpayload") 3 initC).1.awaiting_flag
      = false := by
  refine ⟨fun env fuel s => ?_, by decide, by decide⟩
  unfold request_active_calibrations
  have h := run_block_stuck env fuel 0
    { s with awaiting_response := some true,
             requests := s.requests ++ ["getactivecal"] } rfl
  simp only [h, if_false, Bool.false_eq_true]

/-- C10.  `lock` implicitly requires a broadcast to have arrived: after any
`on_broadcast` the cached data is populated, and an unlocked controls with
populated cache completes `lock` without error; with no broadcast ever
received (`cached = none`, as initialised) `lock` raises — but since the
lock flag is assigned BEFORE the cached data is read, the failed call
leaves the controls locked with nothing remembered, and a retry of `lock`
is a guarded no-op that still records no recurring schedule. -/
theorem lock_requires_broadcast (s t : CState) (b : DeviceBroadcast) (now : ℚ)
    (hs : s.locked = false) (hsc : s.cached = none)
    (ht : t.locked = false) (htc : t.cached.isSome = true) :
    (on_broadcast s b now).cached.isSome = true ∧
    (lock t).2 = false ∧
    (lock s).2 = true ∧
    (lock s).1.locked = true ∧
    (lock s).1.recurrent_commands = s.recurrent_commands ∧
    lock ((lock s).1) = ((lock s).1, false) ∧
    (lock ((lock s).1)).1.recurrent_commands = s.recurrent_commands := by
  have hlocks : lock s = ({ s with locked := true }, true) := by
    unfold lock
    rw [if_neg (by simp [hs]), hsc]
  have hlockt : (lock t).2 = false := by
    unfold lock
    rcases Option.isSome_iff_exists.mp htc with ⟨vals, hv⟩
    rw [if_neg (by simp [ht]), hv]
  refine ⟨rfl, hlockt, ?_, ?_, ?_, ?_, ?_⟩
  · rw [hlocks]
  · rw [hlocks]
  · rw [hlocks]
  · rw [hlocks]
    unfold lock
    rw [if_pos rfl]
  · rw [hlocks]
    unfold lock
    rw [if_pos rfl]

/-- C10, witness: `initC` (no broadcast ever) and
`on_broadcast initC b 0` (one broadcast) at a broadcast carrying one
recurring token. -/
theorem lock_requires_broadcast_witness :
    (on_broadcast initC ⟨["1.5|120"], [], [], []⟩ 0).cached.isSome = true ∧
    (lock (on_broadcast initC ⟨["1.5|120"], [], [], []⟩ 0)).2 = false ∧
    (lock initC).2 = true ∧
    (lock initC).1.locked = true ∧
    (lock initC).1.recurrent_commands = initC.recurrent_commands ∧
    lock ((lock initC).1) = ((lock initC).1, false) ∧
    (lock ((lock initC).1)).1.recurrent_commands = initC.recurrent_commands := by
  have h := lock_requires_broadcast initC
    (on_broadcast initC ⟨["1.5|120"], [], [], []⟩ 0)
    ⟨["1.5|120"], [], [], []⟩ 0 rfl rfl rfl rfl
  exact ⟨h.1, h.2.1, h.2.2.1, h.2.2.2.1, h.2.2.2.2.1, h.2.2.2.2.2.1,
    h.2.2.2.2.2.2⟩

/-- Controls state after one broadcast whose device config echo carries one
recurring pump token ("1.5|120" for pump IN1, vial 0). -/
def lockScenarioStart : CState :=
  on_broadcast initC ⟨(List.replicate 48 "--").set 0 "1.5|120", [], [], []⟩ 0

/-- State after `lock()` in the scenario above. -/
def lockScenarioLocked : CState := (lock lockScenarioStart).1

/-- C3, evaluated at the failing input.  In the scenario above: a second
`lock()` is a guarded no-op (that half of the claim holds), and `lock`
remembered the recurring token "1.5|120"; but `unlock()` raises
`TypeError` at its very first `fluid_command` call (the unpacked
positionals collide with the `vials` keyword), so it re-issues NOTHING —
no message is emitted, the state is unchanged, and in particular the lock
flag is never cleared, contradicting the claim that the remembered
schedule is reproduced and the lock flag cleared. -/
theorem unlock_raises_and_stays_locked :
    lock lockScenarioLocked = (lockScenarioLocked, false) ∧
    lockScenarioLocked.recurrent_commands.getD 0 none = some "1.5|120" ∧
    (unlock lockScenarioLocked).2 = true ∧
    (unlock lockScenarioLocked).1 = lockScenarioLocked ∧
    (unlock lockScenarioLocked).1.emitted = lockScenarioLocked.emitted ∧
    (unlock lockScenarioLocked).1.locked = true := by
  refine ⟨?_, by decide, rfl, rfl, rfl, by decide⟩
  have : lockScenarioLocked.locked = true := by decide
  unfold lock
  rw [if_pos this]

/-- Start of a manager tick: `EvolverManager.on_broadcast` first calls
`reset_queues` on the controls. -/
def tickStart : CState := reset_queues initC

/-- First `fluid_command` of the tick: token "1.0" for (vial 0, IN1). -/
def tickAfterFirst : CState :=
  fluid_command tickStart [0] (some [some "1.0"]) none none false false

/-- Second `fluid_command` of the same tick: token "2.0" for the same
(vial 0, IN1). -/
def tickAfterSecond : CState :=
  fluid_command tickAfterFirst [0] (some [some "2.0"]) none none false false

/-- End of the tick: `EvolverManager.on_broadcast` calls
`dispatch_queues`. -/
def tickEnd : CState := dispatch_queues tickAfterSecond

/-- C4, evaluated at the failing input.  Because the second (direct-emit)
definition of `fluid_command` shadows the queue-based one, each call within
the tick dispatches its own message immediately: the device receives TWO
messages, the first of which carries the FIRST call's token "1.0" at
(vial 0, IN1) — dispatch happens before the overwrite, contradicting the
claim.  The end-of-tick `dispatch_queues` finds both queues untouched and
emits nothing.  For contrast, the shadowed queue-based definition would
satisfy the claim: the same two calls leave only "2.0" in the queue, and
dispatching then emits exactly one message carrying only "2.0". -/
theorem fluid_command_dispatches_each_call :
    tickEnd.emitted =
      [{ param := "pump", value := (List.replicate 48 "--").set 0 "1.0",
         recurring := false, immediate := false },
       { param := "pump", value := (List.replicate 48 "--").set 0 "2.0",
         recurring := false, immediate := false }] ∧
    (fluid_command_queue
        (fluid_command_queue tickStart [0] (some [some "1.0"]) none none
          false false)
        [0] (some [some "2.0"]) none none false false).immediate_queue =
      (List.replicate 48 "--").set 0 "2.0" ∧
    (dispatch_queues (fluid_command_queue
        (fluid_command_queue tickStart [0] (some [some "1.0"]) none none
          false false)
        [0] (some [some "2.0"]) none none false false)).emitted =
      [{ param := "pump", value := (List.replicate 48 "--").set 0 "2.0",
         recurring := false, immediate := true }] := by
  refine ⟨by decide, by decide, by decide⟩

/-! ### Turbidostat (`evolver_manager/bioreactors/turbidostat.py`,
shared base from `evolver_manager/bioreactors/bioreactor.py`)

Modelling notes, in source order:

* `np.log` / `np.power` (used only by `compute_bolus_volume` when the
  configured step count exceeds 1) are transcendental and not exactly
  representable on ℚ; they are abstracted as an injected `TranscOps`
  capability.  Every theorem below either is independent of them or
  instantiates them concretely.
* `FitSet` keeps the fit transforms as functions (`get_val` on the OD and
  temperature fits, `get_inverse` on the temperature fit) plus the pump
  fits' values at 0, which is all the turbidostat path reads.
* `process_data` (bioreactor.py 283-344) is embedded with its quirks: the
  final `append`s sit OUTSIDE the per-vial loop (lines 341-342), so the
  returned tuples hold only the LAST vial's readings, and the temperature
  fit is applied to the OD raw data (line 334).  The NaN fallbacks for
  non-finite fit output cannot occur on ℚ and are not modelled.
* Python `str(float)` for command tokens is modelled by `toString` on ℚ
  (`ratStr`); no claim inspects the token text.
* Per-vial settings lists have the same length as `vials` in any state
  reachable from a constructed reactor (`__post_init__` raises otherwise),
  so positional `getD` defaults are never exercised by the claims. -/

/-- DELTA_T = 0.2 (`global_config.py` line 29). -/
def DELTA_T : ℚ := 1/5

/-- PUMP_TIME_MAX = 18 (`global_config.py` line 36). -/
def PUMP_TIME_MAX : ℚ := 18

/-- POW_PARAM = 1 (`global_config.py` line 43), an integer exponent. -/
def POW_PARAM : ℕ := 1

/-- CONST_PARAM = 1 (`global_config.py` line 44). -/
def CONST_PARAM : ℚ := 1

/-- Injected transcendental kernel standing for `np.log` and `np.power`. -/
structure TranscOps where
  log : ℚ → ℚ
  rpow : ℚ → ℚ → ℚ

/-- Python `round(x, 2)` (FLOAT_RESOLUTION = 2).  Modelled as
round-half-up at the second decimal; Python's round-half-even differs only
at exact ties, which no claim exercises. -/
def pyRound2 (x : ℚ) : ℚ := (⌊x * 100 + 1/2⌋ : ℚ) / 100

/-- Stand-in for Python `str(value)` on a float command token. -/
def ratStr (q : ℚ) : String := toString q

/-- `np.median`: sort ascending, take the middle element (odd length) or
the mean of the two middle elements (even length).  `np.median([])` warns
and yields NaN; the embedding returns 0 there, a case no claim reaches. -/
def median (l : List ℚ) : ℚ :=
  let s := l.insertionSort (· ≤ ·)
  let n := l.length
  if n = 0 then 0
  else if n % 2 = 1 then s.getD (n / 2) 0
  else (s.getD (n / 2 - 1) 0 + s.getD (n / 2) 0) / 2

/-- `collections.deque(maxlen=mem)` append: append and drop from the front
down to `mem` elements. -/
def dequeAppend (mem : ℕ) (l : List ℚ) (x : ℚ) : List ℚ :=
  let l' := l ++ [x]
  l'.drop (l'.length - mem)

/-- Per-vial calibration fit bundle (`bioreactor.FitSet`): the OD and
temperature `get_val` transforms, the temperature `get_inverse`, and the
three pump fits' `get_val(0)` rates. -/
structure FitSet where
  od_val : ℚ → ℚ
  temp_val : ℚ → ℚ
  temp_inv : ℚ → ℚ
  in1_rate : ℚ
  in2_rate : ℚ
  out_rate : ℚ

instance : Inhabited FitSet := ⟨⟨id, id, id, 1, 1, 1⟩⟩

/-- Embeds `EvolverControls.compute_bolus_volume` (lines 110-145).  For
`steps ≤ 1` the bolus is `volume * (current/target - 1)`; otherwise the
log-space serial-dilution position with the robustness correction, floored
at zero and clamped into [BOLUS_VOLUME_MIN, BOLUS_VOLUME_MAX]. -/
def compute_bolus_volume (ops : TranscOps)
    (current starting target : ℚ) (steps : ℤ) (volume : ℚ) : ℚ :=
  if steps ≤ 1 then volume * (current / target - 1)
  else
    let scale := ops.log (starting / target)
    let location := ((steps : ℚ) - 1) * ops.log (current / target) / scale
    let robustness_param := 1 - 2 * (location / (steps : ℚ)) ^ POW_PARAM
    let dilutions_left := location + CONST_PARAM * robustness_param
    let dilution_factor := current / target
    let bolus_volume :=
      (ops.rpow dilution_factor (1 / dilutions_left) - 1) * volume
    if bolus_volume ≤ 0 then 0
    else max (min bolus_volume BOLUS_VOLUME_MAX) BOLUS_VOLUME_MIN

/-- One dilution request collected by the turbidostat update loop for
`dilute_single`: vial, latest OD reading, the upper bound (passed as
`starting_od`), the lower bound (passed as `target_od`), the two inflow
mix weights from `pump_ratios`, the vial's fit set and volume. -/
structure AdjustReq where
  vial : ℕ
  current : ℚ
  starting : ℚ
  target : ℚ
  m1 : ℚ
  m2 : ℚ
  fs : FitSet
  volume : ℚ

/-- Per-vial result of `EvolverControls.dilute_single`: the bolus volume
and the rounded, capped per-channel pump seconds, plus the raw command
token values. -/
structure DiluteCalc where
  vial : ℕ
  bolus : ℚ
  in1_s : ℚ
  in2_s : ℚ
  out_s : ℚ
  in1_tok : ℚ
  in2_tok : ℚ
  out_tok : ℚ

/-- Embeds `EvolverControls.dilute_single` (lines 290-345): size a bolus
per request, derive per-channel pump seconds (rounded, capped at
PUMP_TIME_MAX), then either stash the command tokens into
`_paused_dilutions` when locked or push one `fluid_command` (the effective
direct-emit one, with default flags recurring=False, immediate=False). -/
def dilute_single (ops : TranscOps) (c : CState) (steps : ℤ)
    (reqs : List AdjustReq) : CState × List DiluteCalc :=
  let computed := reqs.map (fun q =>
    let bolus0 := compute_bolus_volume ops q.current q.starting q.target
      steps q.volume
    let bolus_vol := min bolus0 BOLUS_VOLUME_MAX
    let msum := q.m1 + q.m2
    let in1_frac := q.m1 / msum
    let in2_frac := q.m2 / msum
    { vial := q.vial
      bolus := bolus_vol
      in1_s := min PUMP_TIME_MAX (pyRound2 (in1_frac * bolus_vol / q.fs.in1_rate))
      in2_s := min PUMP_TIME_MAX (pyRound2 (in2_frac * bolus_vol / q.fs.in2_rate))
      out_s := min PUMP_TIME_MAX (pyRound2 ((bolus_vol + OUTFLOW_EXTRA) / q.fs.out_rate))
      in1_tok := bolus_vol * in1_frac
      in2_tok := bolus_vol * in2_frac
      out_tok := bolus_vol + OUTFLOW_EXTRA : DiluteCalc })
  if c.locked then
    let pd := computed.foldl
      (fun acc d =>
        ((acc.set d.vial (some (ratStr d.in1_tok))).set
          (NUM_VIALS_DEFAULT + d.vial) (some (ratStr d.in2_tok))).set
          (2 * NUM_VIALS_DEFAULT + d.vial) (some (ratStr d.out_tok)))
      c.paused_dilutions
    ({ c with paused_dilutions := pd }, computed)
  else
    (fluid_command c (computed.map (·.vial))
      (some (computed.map (fun d => some (ratStr d.in1_tok))))
      (some (computed.map (fun d => some (ratStr d.in2_tok))))
      (some (computed.map (fun d => some (ratStr d.out_tok))))
      false false, computed)

/-- Update-message record emitted by the turbidostat: either a stop record
`{"vial": v, "command": "stop"}` or a dilution pump record
`{"vial": v, "in1": ..., "in2": ..., "out": ...}`. -/
inductive TRec where
  | stop (vial : ℕ)
  | dilute (vial : ℕ) (in1 in2 out : ℚ)
deriving DecidableEq

/-- The structured update message `type_hints.UpdateMsg`:
{time, record, vials, od, temp}. -/
structure UpdateMsg where
  time : ℚ
  record : Option (List TRec)
  vials : List ℕ
  od : List ℚ
  temp : List ℚ
deriving DecidableEq

/-- Turbidostat reactor state: the shared `Bioreactor` fields (vials,
volumes, memory length, temperature setpoints, absolute start/end times,
per-vial OD/temperature ring buffers, reading counter, fit sets) plus the
turbidostat-specific settings and per-vial mode state (`_is_diluting`,
`_num_dilutions_left` — the latter has no entry (`none`) for vials without
a finite budget).  History lists are positionally parallel to `vials`. -/
structure TReactor where
  vials : List ℕ
  volumes : List ℚ
  mem_len : ℕ
  temp_setpoints : List ℚ
  start_times : List ℚ
  end_times : List ℚ
  od_history : List (List ℚ)
  temp_history : List (List ℚ)
  num_readings : ℕ
  fits : List FitSet
  dil_steps : ℤ
  upper_bounds : List ℚ
  lower_bounds : List ℚ
  mix1 : List ℚ
  mix2 : List ℚ
  is_diluting : List Bool
  dilutions_left : List (Option ℤ)

/-- Broadcast as consumed by the turbidostat update path: the timestamp,
one raw OD value per vial (the sensor column each vial's fit consumes) and
the raw temperature setpoint echo `config["temp"]["value"]`. -/
structure TBroadcast where
  timestamp : ℚ
  od_raw : List ℚ
  config_temp : List ℚ

/-- Last processed OD reading per vial (`Bioreactor.od_readings`:
`self.od_history[vial][-1]`; the empty-history IndexError is defaulted
to 0, unreachable in the claims). -/
def od_readings (r : TReactor) : List ℚ :=
  r.od_history.map (fun h => h.getLastD 0)

/-- Last processed temperature reading per vial
(`Bioreactor.temp_readings`). -/
def temp_readings (r : TReactor) : List ℚ :=
  r.temp_history.map (fun h => h.getLastD 0)

/-- Embeds `Bioreactor.process_data` faithfully to its dedented final
appends (bioreactor.py lines 320-344): the loop computes per-vial readings
but only the LAST vial's values survive into the returned length-1 tuples,
and the temperature fit is applied to the OD raw data (line 334). -/
def process_data (r : TReactor) (od_raw : List ℚ) : List ℚ × List ℚ :=
  match r.fits.getLast?, r.vials.getLast? with
  | some fs, some v =>
    ([fs.od_val (od_raw.getD v 0)], [fs.temp_val (od_raw.getD v 0)])
  | _, _ => ([], [])

/-- Maximum absolute temperature discrepancy
`np.max(np.abs(np.subtract(temp_readings, setpoints)))`; with the length-1
readings list numpy broadcasts it against every setpoint. -/
def tempMaxDiff (temps setpoints : List ℚ) : ℚ :=
  let diffs := match temps with
    | [x] => setpoints.map (fun s => |x - s|)
    | _ => temps.zipWith (fun a b => |a - b|) setpoints
  diffs.foldl max 0

/-- Embeds `EvolverControls.update_temperature` (lines 639-665): a "temp"
command with the new raw setpoints at the adjusted vials and "NaN"
elsewhere, recurring=True, immediate=False. -/
def update_temperature (c : CState) (adjustments : List (ℕ × ℚ)) : CState :=
  let value := adjustments.foldl (fun acc p => acc.set p.1 (ratStr p.2))
    (List.replicate NUM_VIALS_DEFAULT "NaN")
  emitCommand c { param := "temp", value := value,
                  recurring := true, immediate := false }

/-- Embeds `Bioreactor._manage_temperature` (bioreactor.py lines 237-281):
if the largest reading/setpoint discrepancy exceeds DELTA_T, compare each
vial's raw inverse-fit setpoint with the device's echoed setpoint and issue
one `update_temperature` command for the disagreeing vials (none when all
agree). -/
def manage_temperature (r : TReactor) (temps : List ℚ)
    (config_temp : List ℚ) (c : CState) : CState :=
  if tempMaxDiff temps r.temp_setpoints ≤ DELTA_T then c
  else
    let adjustments := (r.vials.zip (r.fits.zip r.temp_setpoints)).filterMap
      (fun vfs =>
        let raw := vfs.2.1.temp_inv vfs.2.2
        if config_temp.getD vfs.1 0 ≠ raw then some (vfs.1, raw) else none)
    if adjustments.isEmpty then c
    else update_temperature c adjustments

/-- Embeds `Bioreactor.pre_update` (bioreactor.py lines 346-387): decode
the broadcast via `process_data`, append readings to the ring buffers
(`zip(self.vials, od_readings, temp_readings)` — with the length-1 decoded
lists only the first vial's history actually grows), run the temperature
check, return `(False, None)` while `now` is before every vial's start
time, else emit stop records (and a pump-stop command) for vials whose
nonzero end time has passed and return `(True, records)`. -/
def pre_update (r : TReactor) (c : CState) (b : TBroadcast) (t : ℚ) :
    TReactor × CState × Bool × Option (List TRec) :=
  let decoded := process_data r b.od_raw
  let ods := decoded.1
  let temps := decoded.2
  let k := min r.vials.length (min ods.length temps.length)
  let r1 := { r with
    od_history := r.od_history.mapIdx
      (fun i h => if i < k then dequeAppend r.mem_len h (ods.getD i 0) else h)
    temp_history := r.temp_history.mapIdx
      (fun i h => if i < k then dequeAppend r.mem_len h (temps.getD i 0) else h)
    num_readings := r.num_readings + k }
  let c1 := manage_temperature r1 temps b.config_temp c
  let started := match r1.start_times.min? with
    | some m => decide (¬ t < m)
    | none => true
  if started = false then (r1, c1, false, none)
  else
    let stops := (r1.vials.zip r1.end_times).filterMap
      (fun ve => if ve.2 ≠ 0 ∧ t > ve.2 then some ve.1 else none)
    let records := stops.map TRec.stop
    (r1, stop_pumps c1 stops true true true, true, some records)

/-- Per-vial decision of one turbidostat update tick: final mode flag and
budget entry, whether a stop record was emitted (and the vial queued for a
pump stop), and whether the vial was queued for a dilution bolus. -/
structure VialOutcome where
  diluting : Bool
  budget : Option ℤ
  stop : Bool
  adjust : Bool
deriving DecidableEq

instance : Inhabited VialOutcome := ⟨⟨false, none, false, false⟩⟩

/-- Embeds the body of the per-vial loop of `Turbidostat.update`
(turbidostat.py lines 165-200) for one vial: skip outside the
[start, end] window; in GROWTH, skip while the median OD is below the
upper bound, otherwise consume one budget unit and enter DILUTING if
`_num_dilutions_left.get(vial, 1) > 0`, else emit a stop record; finally
(when in DILUTING, freshly or not) return to GROWTH if the latest OD
reading is below the lower bound, else request a dilution bolus. -/
def turbidostat_vial_step (t start_t end_t upper lower : ℚ)
    (hist : List ℚ) (diluting : Bool) (budget : Option ℤ) : VialOutcome :=
  if t < start_t ∨ t > end_t then ⟨diluting, budget, false, false⟩
  else if diluting = false ∧ median hist < upper then
    ⟨diluting, budget, false, false⟩
  else if diluting = false ∧ budget.getD 1 ≤ 0 then
    ⟨diluting, budget, true, false⟩
  else
    let budget' := if diluting then budget else budget.map (fun n => n - 1)
    if hist.getLastD 0 < lower then ⟨false, budget', false, false⟩
    else ⟨true, budget', false, true⟩

/-- Embeds `Turbidostat.update` (turbidostat.py lines 124-220).  The
update message is built first (from the PRE-append histories), then
`pre_update` runs; before the start time the message is returned with
`record = None`.  Otherwise the per-vial loop runs, `dilute_single` issues
the boluses, `stop_pumps` stops the exhausted vials, the message's `time`
and `record` fields are assigned — and then the source function ends
WITHOUT a return statement, so the started path returns Python `None`,
which the `Option.none` in the message component records. -/
def turbidostat_update (ops : TranscOps) (r : TReactor) (c : CState)
    (b : TBroadcast) (t : ℚ) : TReactor × CState × Option UpdateMsg :=
  let msg : UpdateMsg :=
    { time := b.timestamp, record := none, vials := r.vials,
      od := od_readings r, temp := temp_readings r }
  let pre := pre_update r c b t
  let r1 := pre.1
  let c1 := pre.2.1
  if pre.2.2.1 = false then (r1, c1, some msg)
  else
    let idxs := List.range r1.vials.length
    let outcomes := idxs.map (fun i =>
      turbidostat_vial_step t (r1.start_times.getD i 0) (r1.end_times.getD i 0)
        (r1.upper_bounds.getD i 0) (r1.lower_bounds.getD i 0)
        (r1.od_history.getD i []) (r1.is_diluting.getD i false)
        ((r1.dilutions_left).getD i none))
    let r2 := { r1 with is_diluting := outcomes.map (·.diluting),
                        dilutions_left := outcomes.map (·.budget) }
    let stopRecords := idxs.filterMap (fun i =>
      if (outcomes.getD i default).stop then some (TRec.stop (r1.vials.getD i 0))
      else none)
    let vials_to_stop := idxs.filterMap (fun i =>
      if (outcomes.getD i default).stop then some (r1.vials.getD i 0) else none)
    let reqs := idxs.filterMap (fun i =>
      if (outcomes.getD i default).adjust then
        some { vial := r1.vials.getD i 0
               current := (r1.od_history.getD i []).getLastD 0
               starting := r1.upper_bounds.getD i 0
               target := r1.lower_bounds.getD i 0
               m1 := r1.mix1.getD i 0
               m2 := r1.mix2.getD i 0
               fs := r1.fits.getD i default
               volume := r1.volumes.getD i 0 : AdjustReq }
      else none)
    let diluted := dilute_single ops c1 r1.dil_steps reqs
    let c2 := diluted.1
    let diluteRecords := diluted.2.map (fun d =>
      TRec.dilute d.vial d.in1_s d.in2_s d.out_s)
    let c3 := stop_pumps c2 vials_to_stop true true true
    let _msg' : UpdateMsg := { msg with
      time := t
      record := some ((pre.2.2.2.getD []) ++ stopRecords ++ diluteRecords) }
    (r2, c3, none)

/-- C5.  For a vial with a finite dilution budget `n ≥ 0`, one turbidostat
tick: (i) decrements the budget by exactly one when a GROWTH→DILUTING
transition fires (in window, median OD at or above the upper bound, budget
positive) and (ii) leaves it untouched otherwise, so (iii) the budget never
goes negative; (iv) the vial becomes DILUTING from GROWTH only under those
transition conditions; and (v) once the budget is zero a GROWTH vial never
re-enters DILUTING, requests no bolus, keeps budget zero, and emits a stop
record whenever it is in window with median OD at or above the upper
bound. -/
theorem turbidostat_budget_invariant (t st et up lo : ℚ) (hist : List ℚ)
    (dil : Bool) (n : ℤ) (hn : 0 ≤ n) :
    ((dil = false ∧ (st ≤ t ∧ t ≤ et) ∧ up ≤ median hist ∧ 0 < n) →
      (turbidostat_vial_step t st et up lo hist dil (some n)).budget =
        some (n - 1)) ∧
    (¬(dil = false ∧ (st ≤ t ∧ t ≤ et) ∧ up ≤ median hist ∧ 0 < n) →
      (turbidostat_vial_step t st et up lo hist dil (some n)).budget =
        some n) ∧
    (∀ m, (turbidostat_vial_step t st et up lo hist dil (some n)).budget =
        some m → 0 ≤ m) ∧
    (dil = false →
      (turbidostat_vial_step t st et up lo hist dil (some n)).diluting = true →
      (st ≤ t ∧ t ≤ et) ∧ up ≤ median hist ∧ 0 < n) ∧
    (n = 0 → dil = false →
      (turbidostat_vial_step t st et up lo hist dil (some n)).diluting = false ∧
      (turbidostat_vial_step t st et up lo hist dil (some n)).budget = some 0 ∧
      (turbidostat_vial_step t st et up lo hist dil (some n)).adjust = false ∧
      ((st ≤ t ∧ t ≤ et) → up ≤ median hist →
        (turbidostat_vial_step t st et up lo hist dil (some n)).stop = true)) := by
  cases dil with
  | true =>
    have hstep : turbidostat_vial_step t st et up lo hist true (some n) =
        if t < st ∨ t > et then ⟨true, some n, false, false⟩
        else if hist.getLastD 0 < lo then ⟨false, some n, false, false⟩
        else ⟨true, some n, false, true⟩ := by
      unfold turbidostat_vial_step
      by_cases hw : t < st ∨ t > et
      · rw [if_pos hw, if_pos hw]
      · rw [if_neg hw, if_neg hw,
          if_neg (by simp : ¬(true = false ∧ median hist < up)),
          if_neg (by simp : ¬(true = false ∧ (Option.getD (some n) 1) ≤ 0))]
        simp only [if_true]
    rw [hstep]
    by_cases hw : t < st ∨ t > et
    · rw [if_pos hw]
      exact ⟨fun h => absurd h.1 (by simp), fun _ => rfl,
        fun m hm => by cases hm; exact hn,
        fun hd => absurd hd (by simp), fun _ hd => absurd hd (by simp)⟩
    · rw [if_neg hw]
      by_cases hlow : hist.getLastD 0 < lo
      · rw [if_pos hlow]
        exact ⟨fun h => absurd h.1 (by simp), fun _ => rfl,
          fun m hm => by cases hm; exact hn,
          fun _ hdilu => absurd hdilu (by simp),
          fun _ hd => absurd hd (by simp)⟩
      · rw [if_neg hlow]
        exact ⟨fun h => absurd h.1 (by simp), fun _ => rfl,
          fun m hm => by cases hm; exact hn,
          fun hd => absurd hd (by simp), fun _ hd => absurd hd (by simp)⟩
  | false =>
    by_cases hw : t < st ∨ t > et
    · have hstep : turbidostat_vial_step t st et up lo hist false (some n) =
          ⟨false, some n, false, false⟩ := by
        unfold turbidostat_vial_step
        rw [if_pos hw]
      rw [hstep]
      have hwin : ¬(st ≤ t ∧ t ≤ et) := by
        rcases hw with h | h
        · exact fun hc => absurd hc.1 (not_le.mpr h)
        · exact fun hc => absurd hc.2 (not_le.mpr h)
      exact ⟨fun h => absurd h.2.1 hwin, fun _ => rfl,
        fun m hm => by cases hm; exact hn,
        fun _ hdilu => by simp at hdilu,
        fun hn0 _ => ⟨rfl, by rw [hn0], rfl, fun hc _ => absurd hc hwin⟩⟩
    · have hwin : st ≤ t ∧ t ≤ et := by
        push_neg at hw
        exact ⟨le_of_not_lt (fun h => absurd h (by simpa using hw.1)),
          le_of_not_lt (by simpa [not_lt] using hw.2)⟩
      by_cases hup : median hist < up
      · have hstep : turbidostat_vial_step t st et up lo hist false (some n) =
            ⟨false, some n, false, false⟩ := by
          unfold turbidostat_vial_step
          rw [if_neg hw, if_pos ⟨rfl, hup⟩]
        rw [hstep]
        exact ⟨fun h => absurd h.2.2.1 (not_le.mpr hup), fun _ => rfl,
          fun m hm => by cases hm; exact hn,
          fun _ hdilu => by simp at hdilu,
          fun hn0 _ => ⟨rfl, by rw [hn0], rfl,
            fun _ hc => absurd hc (not_le.mpr hup)⟩⟩
      · by_cases hpos : n ≤ 0
        · have hstep : turbidostat_vial_step t st et up lo hist false (some n) =
              ⟨false, some n, true, false⟩ := by
            unfold turbidostat_vial_step
            rw [if_neg hw, if_neg (fun hc => absurd hc.2 hup),
              if_pos ⟨rfl, by simpa using hpos⟩]
          rw [hstep]
          exact ⟨fun h => absurd h.2.2.2 (not_lt.mpr hpos), fun _ => rfl,
            fun m hm => by cases hm; exact hn,
            fun _ hdilu => by simp at hdilu,
            fun hn0 _ => ⟨rfl, by rw [hn0], rfl, fun _ _ => rfl⟩⟩
        · have hstep : turbidostat_vial_step t st et up lo hist false (some n) =
              if hist.getLastD 0 < lo then ⟨false, some (n - 1), false, false⟩
              else ⟨true, some (n - 1), false, true⟩ := by
            unfold turbidostat_vial_step
            rw [if_neg hw, if_neg (fun hc => absurd hc.2 hup),
              if_neg (fun hc => absurd hc.2 (by simpa using hpos))]
            rfl
          rw [hstep]
          have hcond : false = false ∧ (st ≤ t ∧ t ≤ et) ∧
              up ≤ median hist ∧ 0 < n :=
            ⟨rfl, hwin, not_lt.mp hup, lt_of_not_le hpos⟩
          by_cases hlow : hist.getLastD 0 < lo
          · rw [if_pos hlow]
            exact ⟨fun _ => rfl, fun h => absurd hcond h,
              fun m hm => by cases hm; omega,
              fun _ hdilu => by simp at hdilu,
              fun hn0 _ => absurd hn0 (by omega)⟩
          · rw [if_neg hlow]
            exact ⟨fun _ => rfl, fun h => absurd hcond h,
              fun m hm => by cases hm; omega,
              fun _ _ => ⟨hwin, not_lt.mp hup, lt_of_not_le hpos⟩,
              fun hn0 _ => absurd hn0 (by omega)⟩

/-- C5, witness: a GROWTH vial inside its window at t = 5 ∈ [0, 10] with
median OD 3/5 at or above the upper bound 1/2 and budget 3 transitions and
is charged exactly one unit. -/
theorem turbidostat_budget_invariant_witness :
    ((false = false ∧ ((0:ℚ) ≤ 5 ∧ (5:ℚ) ≤ 10) ∧ (1/2 : ℚ) ≤ median [3/5] ∧
        (0:ℤ) < 3) →
      (turbidostat_vial_step 5 0 10 (1/2) (1/5) [3/5] false (some 3)).budget =
        some (3 - 1)) ∧
    (¬(false = false ∧ ((0:ℚ) ≤ 5 ∧ (5:ℚ) ≤ 10) ∧ (1/2 : ℚ) ≤ median [3/5] ∧
        (0:ℤ) < 3) →
      (turbidostat_vial_step 5 0 10 (1/2) (1/5) [3/5] false (some 3)).budget =
        some 3) ∧
    (∀ m, (turbidostat_vial_step 5 0 10 (1/2) (1/5) [3/5] false
        (some 3)).budget = some m → 0 ≤ m) ∧
    (false = false →
      (turbidostat_vial_step 5 0 10 (1/2) (1/5) [3/5] false
        (some 3)).diluting = true →
      ((0:ℚ) ≤ 5 ∧ (5:ℚ) ≤ 10) ∧ (1/2 : ℚ) ≤ median [3/5] ∧ (0:ℤ) < 3) ∧
    ((3:ℤ) = 0 → false = false →
      (turbidostat_vial_step 5 0 10 (1/2) (1/5) [3/5] false
        (some 3)).diluting = false ∧
      (turbidostat_vial_step 5 0 10 (1/2) (1/5) [3/5] false
        (some 3)).budget = some 0 ∧
      (turbidostat_vial_step 5 0 10 (1/2) (1/5) [3/5] false
        (some 3)).adjust = false ∧
      (((0:ℚ) ≤ 5 ∧ (5:ℚ) ≤ 10) → (1/2 : ℚ) ≤ median [3/5] →
        (turbidostat_vial_step 5 0 10 (1/2) (1/5) [3/5] false
          (some 3)).stop = true)) :=
  turbidostat_budget_invariant 5 0 10 (1/2) (1/5) [3/5] false 3 (by norm_num)

/-- C7, evaluated at the failing behaviour.  `Turbidostat.update` builds
the {time, record, vials, od, temp} message and calls `pre_update`; while
not started it returns that message with `record = None` — but once
`pre_update` reports started, the source's body runs to completion and
falls off the end of the function WITHOUT a return statement, so the call
returns `None` instead of the structured message the claim requires. -/
theorem turbidostat_update_missing_return (ops : TranscOps) (r : TReactor)
    (c : CState) (b : TBroadcast) (t : ℚ) :
    ((pre_update r c b t).2.2.1 = false →
      (turbidostat_update ops r c b t).2.2 = some
        { time := b.timestamp, record := none, vials := r.vials,
          od := od_readings r, temp := temp_readings r }) ∧
    ((pre_update r c b t).2.2.1 = true →
      (turbidostat_update ops r c b t).2.2 = none) := by
  constructor
  · intro h
    unfold turbidostat_update
    simp only [h]
    simp
  · intro h
    unfold turbidostat_update
    simp only [h]
    simp

/-- Placeholder transcendental kernel for concrete evaluation (the
single-step bolus path never consults it). -/
def sampleOps : TranscOps := ⟨fun _ => 0, fun _ _ => 0⟩

/-- Identity-fit calibration bundle for one vial. -/
def sampleFit : FitSet := ⟨id, id, id, 1, 1, 1⟩

/-- A started single-vial turbidostat: window [0, 1000], upper bound 1/2,
lower bound 1/5, one stored OD reading 3/5, budget 3. -/
def sampleReactor : TReactor where
  vials := [0]
  volumes := [20]
  mem_len := 3
  temp_setpoints := [30]
  start_times := [0]
  end_times := [1000]
  od_history := [[3/5]]
  temp_history := [[30]]
  num_readings := 1
  fits := [sampleFit]
  dil_steps := 1
  upper_bounds := [1/2]
  lower_bounds := [1/5]
  mix1 := [3/4]
  mix2 := [1/4]
  is_diluting := [false]
  dilutions_left := [some 3]

/-- A broadcast at device time 100 with raw OD 1/2 and an agreeing
temperature echo. -/
def sampleBroadcast : TBroadcast := ⟨100, [1/2], [30]⟩

/-- C7, witness: the started turbidostat above runs its whole update body
at t = 5 and the call yields `None` rather than a message. -/
theorem turbidostat_update_missing_return_witness :
    (pre_update sampleReactor initC sampleBroadcast 5).2.2.1 = true ∧
    (turbidostat_update sampleOps sampleReactor initC sampleBroadcast
      5).2.2 = none :=
  ⟨by decide,
    (turbidostat_update_missing_return sampleOps sampleReactor initC
      sampleBroadcast 5).2 (by decide)⟩

end DpuVH
